import Mathlib

/-!
Verification of the while_loop higher-order operator
(torch/_higher_order_ops/while_loop.py) against its specification.

The Python values that flow through the operator are shallowly embedded as
`PyVal`; each dispatch-mode implementation of the operator is embedded as a
computable Lean function translated clause by clause from the source.
Python exceptions are modelled with `Except Err`; the possibly diverging
dense loop takes an explicit fuel argument and is wrapped in `Option`
(`Option.none` meaning the fuel ran out before the loop finished).
-/

namespace WhileLoopHOP

/-- Tensor dtypes needed by this operator model. Only `bool` is ever
inspected by the source (the condition-output validity check). -/
inductive DType where
  | bool
  | int64
  | float32
deriving DecidableEq

/-- Model of the Python values flowing through the while_loop operator:
tensors (shape, dtype, flattened data), native ints, floats (coded opaquely
by an integer, code 0 standing for 0.0, since the operator never does float
arithmetic), native bools, unbacked symbolic integers (identified by their
allocation index in the shape environment), None, and tuples. -/
inductive PyVal where
  | tensor (shape : List Nat) (dtype : DType) (data : List Int)
  | int (n : Int)
  | float (code : Int)
  | bool (b : Bool)
  | symInt (id : Nat)
  | none
  | tuple (elems : List PyVal)

/-- Which of the two wrapped functions an alias/mutation error implicates,
modelling the two f-string messages of while_loop_func. -/
inductive AliasMutKind where
  | mutating
  | aliasing
deriving DecidableEq

/-- The exceptions the embedded code can raise. Each constructor stands for
one concrete raise site (or one host-language failure mode) of the source. -/
inductive Err where
  | carriedNotTuple
  | additionalNotTuple
  | carriedBadElemTypes
  | condNotBoolScalar
  | bodyNotTuple
  | bodyWrongArity
  | boolOfTensorAmbiguous
  | dataDependentTruth
  | assertionError
  | typeError
  | unsupportedAliasMutation (fn_name : String) (kind : AliasMutKind)
deriving DecidableEq

/-- Python truthiness, the implicit bool() conversion performed by the
walrus condition `while pred := cond_fn(...)` of while_loop_dense. A tensor
converts exactly when it has one element (truth value: that element is
nonzero); empty or multi-element tensors raise the ambiguity error. An
unbacked symbolic integer has no concrete value, so its conversion raises a
data-dependent guard error. -/
def pyTruth : PyVal → Except Err Bool
  | .tensor shape _ data =>
      if shape.prod = 1 then .ok (decide (data.getD 0 0 ≠ 0))
      else .error .boolOfTensorAmbiguous
  | .int n => .ok (decide (n ≠ 0))
  | .float code => .ok (decide (code ≠ 0))
  | .bool b => .ok b
  | .symInt _ => .error .dataDependentTruth
  | .none => .ok false
  | .tuple vs => .ok (!vs.isEmpty)

/-- Embeds `_is_valid_cond_fn_output` of while_loop_dense (src lines
158-163): the predicate is a native bool, or a zero-dimensional tensor of
boolean dtype. -/
def _is_valid_cond_fn_output (pred : PyVal) : Bool :=
  match pred with
  | .bool _ => true
  | .tensor shape dtype _ => decide (shape = [] ∧ dtype = DType.bool)
  | _ => false

/-- Embeds the loop of while_loop_dense (src lines 170-183), from an
arbitrary current carried state. `n` is the arity of the original
carried_inputs (the assert at lines 179-181 compares against it). Fuel
bounds the number of iterations; `Option.none` means the fuel ran out. -/
def while_loop_dense_go (cond_fn body_fn : List PyVal → PyVal)
    (additional_inputs : List PyVal) (n : Nat) :
    List PyVal → Nat → Option (Except Err (List PyVal))
  | _, 0 => Option.none
  | carried_vals, fuel + 1 =>
    let pred := cond_fn (carried_vals ++ additional_inputs)
    match pyTruth pred with
    | .error e => some (.error e)
    | .ok false => some (.ok carried_vals)
    | .ok true =>
      if _is_valid_cond_fn_output pred then
        match body_fn (carried_vals ++ additional_inputs) with
        | .tuple out =>
          if out.length = n then
            while_loop_dense_go cond_fn body_fn additional_inputs n out fuel
          else some (.error .bodyWrongArity)
        | _ => some (.error .bodyNotTuple)
      else some (.error .condNotBoolScalar)

/-- Embeds while_loop_dense (src lines 155-183): the tuple check on
carried_inputs at lines 165-168, then the loop. -/
def while_loop_dense (cond_fn body_fn : List PyVal → PyVal)
    (carried_inputs : PyVal) (additional_inputs : List PyVal) (fuel : Nat) :
    Option (Except Err (List PyVal)) :=
  match carried_inputs with
  | .tuple cs => while_loop_dense_go cond_fn body_fn additional_inputs cs.length cs fuel
  | _ => some (.error .carriedNotTuple)

/-- Reference semantics written from the spec words (the refinement
comparison definition for the dense executor, not a translation of the
source): val = carried_inputs; while cond_fn(*val, *additional):
val = body_fn(*val, *additional); return val. Star-unpacking a non-tuple
val raises a host TypeError. Same fuel convention as the dense executor. -/
def while_loop_reference (cond_fn body_fn : List PyVal → PyVal)
    (additional_inputs : List PyVal) : PyVal → Nat → Option (Except Err PyVal)
  | _, 0 => Option.none
  | val, fuel + 1 =>
    match val with
    | .tuple vs =>
      match pyTruth (cond_fn (vs ++ additional_inputs)) with
      | .error e => some (.error e)
      | .ok false => some (.ok val)
      | .ok true =>
        while_loop_reference cond_fn body_fn additional_inputs
          (body_fn (vs ++ additional_inputs)) fuel
    | _ => some (.error .typeError)

/-- Python isinstance(arg, int), the element test of the symbolic-integer
unspecializer: native bools are a subtype of int in Python, so this
matches both int and bool values; torch.SymInt is not an int subclass, so
symbolic integers do not match, nor do tensors or floats. -/
def py_isinstance_int : PyVal → Bool
  | .int _ => true
  | .bool _ => true
  | _ => false

/-- Modelled from the spec: the shape-tracking environment (spec section
6), the external service offering symbolic-integer allocation. Allocation
state is a counter of allocated unbacked symbols, plus the bindings
recorded by the optional binding mode of spec section 4.3. -/
structure ShapeEnv where
  counter : Nat
  bindings : List Nat
deriving DecidableEq

/-- The slice of the external FakeTensorMode this operator consumes: its
shape environment. -/
structure FakeTensorMode where
  shape_env : ShapeEnv
deriving DecidableEq

/-- Modelled from the spec: create_unbacked_symint of the shape-tracking
environment allocates a fresh unbacked symbolic integer, identified by the
current counter value, and advances the counter. -/
def ShapeEnv.create_unbacked_symint (env : ShapeEnv) : Nat × ShapeEnv :=
  (env.counter, { env with counter := env.counter + 1 })

/-- Modelled from the spec: compute_unbacked_bindings (spec section 4.3,
optional binding mode) records a binding from the freshly created symbol
back to its originating computation; the source discards its return value,
so only the recording effect is modelled. -/
def compute_unbacked_bindings (env : ShapeEnv) (id : Nat) : ShapeEnv :=
  { env with bindings := env.bindings ++ [id] }

/-- Embeds _unspecialize_int (src lines 191-200): assert the argument is a
Python int (AssertionError otherwise), allocate a fresh unbacked symint
from the shape environment, record its binding when compute_binding is
set, and return it. The stray debugger breakpoint keyed off the substring
u15 (src lines 198-199) suspends an interactive session without changing
the returned value, so it is modelled as a no-op. -/
def _unspecialize_int (fake_mode : FakeTensorMode) (t : PyVal) (compute_binding : Bool) :
    Except Err (PyVal × FakeTensorMode) :=
  if py_isinstance_int t then
    match fake_mode.shape_env.create_unbacked_symint with
    | (unbacked_idx, env1) =>
      let env2 := if compute_binding then compute_unbacked_bindings env1 unbacked_idx else env1
      .ok (.symInt unbacked_idx, { shape_env := env2 })
  else .error .assertionError

/-- The element-by-element generator inside
unspecialize_ints_with_unbacked_symints (src lines 207-210), threading the
mutated fake mode through the sequence of elements. -/
def unspecializeList (fake_mode : FakeTensorMode) (args : List PyVal) (bind : Bool) :
    Except Err (List PyVal × FakeTensorMode) :=
  match args with
  | [] => .ok ([], fake_mode)
  | arg :: rest =>
    match (if py_isinstance_int arg then _unspecialize_int fake_mode arg bind
           else .ok (arg, fake_mode)) with
    | .error e => .error e
    | .ok (arg1, mode1) =>
      match unspecializeList mode1 rest bind with
      | .error e => .error e
      | .ok (rest1, mode2) => .ok (arg1 :: rest1, mode2)

/-- Embeds unspecialize_ints_with_unbacked_symints (src lines 206-210):
iterate the carried tuple, replacing each element matching
isinstance(arg, int) by a fresh unbacked symint, and rebuild the tuple.
Iterating a non-tuple raises a host TypeError (Python tensors are also
iterable, but no caller of this operator reaches that case). The bind
parameter defaults to False in the source; callers here pass it
explicitly. -/
def unspecialize_ints_with_unbacked_symints (fake_mode : FakeTensorMode)
    (carried_inputs : PyVal) (bind : Bool) : Except Err (PyVal × FakeTensorMode) :=
  match carried_inputs with
  | .tuple vs =>
    match unspecializeList fake_mode vs bind with
    | .error e => .error e
    | .ok (out, mode1) => .ok (.tuple out, mode1)
  | _ => .error .typeError

/-- Embeds the carried-element acceptance test of WhileLoopOp.__call__
(src lines 47-50): isinstance(t, (torch.Tensor, int, float, bool,
torch.SymInt)). -/
def is_allowed_carried_elem : PyVal → Bool
  | .tensor _ _ _ => true
  | .int _ => true
  | .float _ => true
  | .bool _ => true
  | .symInt _ => true
  | _ => false

/-- Embeds WhileLoopOp.__call__ (src lines 30-57): check carried_inputs is
a tuple, check additional_inputs is a tuple, check every carried element
has an allowed type, run the external additional-input validator, and only
then dispatch through super().__call__. The external validator and the
dispatch are opaque collaborators passed as parameters. -/
def WhileLoopOp_call (cond_fn body_fn : List PyVal → PyVal)
    (carried_inputs additional_inputs : PyVal)
    (validate_subgraph_args_types : PyVal → Except Err Unit)
    (dispatch : (List PyVal → PyVal) → (List PyVal → PyVal) → PyVal → PyVal →
      Except Err (List PyVal)) : Except Err (List PyVal) :=
  match carried_inputs with
  | .tuple cs =>
    match additional_inputs with
    | .tuple _ =>
      if cs.all is_allowed_carried_elem then
        match validate_subgraph_args_types additional_inputs with
        | .error e => .error e
        | .ok _ => dispatch cond_fn body_fn carried_inputs additional_inputs
      else .error .carriedBadElemTypes
    | _ => .error .additionalNotTuple
  | _ => .error .carriedNotTuple

/-- Per-element shape/dtype signature of a carried value. Int-like scalars
(int, bool, symint) share one signature class: Python bool is an int
subtype and a symint stands for an int whose value is unknown, which is
exactly how the unspecializer treats the three. A tuple contributes its
arity (carried elements are flat scalars or tensors per the data model). -/
inductive Sig where
  | tensorSig (shape : List Nat) (dtype : DType)
  | intLike
  | floatSig
  | noneSig
  | tupleSig (arity : Nat)
deriving DecidableEq

/-- The signature of a value, used to state the metadata contract of the
fake-tensor-mode adapter. -/
def sig : PyVal → Sig
  | .tensor shape dtype _ => .tensorSig shape dtype
  | .int _ => .intLike
  | .bool _ => .intLike
  | .symInt _ => .intLike
  | .float _ => .floatSig
  | .none => .noneSig
  | .tuple vs => .tupleSig vs.length

set_option linter.unusedVariables false in
/-- Embeds while_loop_fake_tensor_mode (src lines 268-284): evaluate
body_fn once on the carried plus additional inputs inside the fake mode
(the with mode: and ignore_fresh_unbacked_symbols context managers scope
symbol bookkeeping that does not change the returned value), then replace
int outputs by fresh unbacked symints; bind is left at its False default.
cond_fn is received but never used. -/
def while_loop_fake_tensor_mode (mode : FakeTensorMode)
    (cond_fn body_fn : List PyVal → PyVal)
    (carried_inputs additional_inputs : List PyVal) :
    Except Err (PyVal × FakeTensorMode) :=
  let body_output := body_fn (carried_inputs ++ additional_inputs)
  unspecialize_ints_with_unbacked_symints mode body_output false

/-- Modelled from the spec: the external functionalization context and
static checkers consumed by while_loop_func (spec sections 4.6 and 6) --
copy-on-write unwrap and wrap of values, the functionalize transform, the
interpreter wrapper of _maybe_run_with_interpreter, the pre-dispatch flag
of the enclosing mode, and the two potential-input-mutation and
potential-input-aliasing detectors (taking a function, the unwrapped
inputs and the pre-dispatch flag). Each is opaque to this operator. -/
structure FunctionalizationCtx where
  unwrap : PyVal → PyVal
  wrap : PyVal → PyVal
  functionalize : (List PyVal → PyVal) → (List PyVal → PyVal)
  run_with_interpreter : (List PyVal → PyVal) → (List PyVal → PyVal)
  pre_dispatch : Bool
  has_potential_branch_input_mutation :
    (List PyVal → PyVal) → List PyVal → Bool → Bool
  has_potential_branch_input_alias :
    (List PyVal → PyVal) → List PyVal → Bool → Bool

/-- Embeds while_loop_func (src lines 287-319): unwrap carried and
additional inputs, functionalize the two wrapped functions, run the
mutation check then the alias check for cond_fn and then for body_fn in
source order -- raising the dedicated unsupported-alias-mutation error
naming the offending function at the first detection -- and otherwise
invoke the operator (the dispatch continuation op) on the functionalized
functions and unwrapped inputs, re-wrapping the returned tuple
elementwise in copy-on-write form. -/
def while_loop_func (ctx : FunctionalizationCtx)
    (op : (List PyVal → PyVal) → (List PyVal → PyVal) → List PyVal → List PyVal →
      Except Err (List PyVal))
    (cond_fn body_fn : List PyVal → PyVal)
    (carried_inputs additional_inputs : List PyVal) : Except Err (List PyVal) :=
  let unwrapped_carried_inputs := carried_inputs.map ctx.unwrap
  let unwrapped_additional_inputs := additional_inputs.map ctx.unwrap
  let unwrapped_inputs := unwrapped_carried_inputs ++ unwrapped_additional_inputs
  let functional_cond_fn := ctx.functionalize (ctx.run_with_interpreter cond_fn)
  let functional_body_fn := ctx.functionalize (ctx.run_with_interpreter body_fn)
  if ctx.has_potential_branch_input_mutation functional_cond_fn
      unwrapped_inputs ctx.pre_dispatch then
    .error (.unsupportedAliasMutation "cond_fn" .mutating)
  else if ctx.has_potential_branch_input_alias functional_cond_fn
      unwrapped_inputs ctx.pre_dispatch then
    .error (.unsupportedAliasMutation "cond_fn" .aliasing)
  else if ctx.has_potential_branch_input_mutation functional_body_fn
      unwrapped_inputs ctx.pre_dispatch then
    .error (.unsupportedAliasMutation "body_fn" .mutating)
  else if ctx.has_potential_branch_input_alias functional_body_fn
      unwrapped_inputs ctx.pre_dispatch then
    .error (.unsupportedAliasMutation "body_fn" .aliasing)
  else
    match op functional_cond_fn functional_body_fn
        unwrapped_carried_inputs unwrapped_additional_inputs with
    | .error e => .error e
    | .ok ret => .ok (ret.map ctx.wrap)

/-- The cond subgraph name with numeric suffix i (src line 239). -/
def while_loop_cond_graph_name (i : Nat) : String :=
  "while_loop_cond_graph_" ++ toString i

/-- The body subgraph name with numeric suffix i (src line 245). -/
def while_loop_body_graph_name (i : Nat) : String :=
  "while_loop_body_graph_" ++ toString i

/-- Embeds the probing loop of while_loop_tracing (src lines 236-243):
starting from suffix i, advance while the cond name is already an
attribute of the tracer root. Fueled, since the Python loop is unbounded;
Option.none means the fuel ran out before a free suffix was found. -/
def find_cond_graph_suffix (root_attrs : List String) : Nat → Nat → Option Nat
  | _, 0 => Option.none
  | i, fuel + 1 =>
    if while_loop_cond_graph_name i ∈ root_attrs then
      find_cond_graph_suffix root_attrs (i + 1) fuel
    else some i

/-- Embeds the subgraph naming and registration step of while_loop_tracing
(src lines 236-249): probe for a free cond name, pair it with the body
name of the same suffix, assert that body name free (AssertionError
otherwise, src line 246), and register both as attributes of the tracer
root. The enclosing graph namespace is modelled as the list of attribute
names of proxy_mode.tracer.root. -/
def _trace_while_loop_register_subgraphs (root_attrs : List String) (fuel : Nat) :
    Option (Except Err (String × String × List String)) :=
  match find_cond_graph_suffix root_attrs 0 fuel with
  | Option.none => Option.none
  | some i =>
    let cond_graph_name := while_loop_cond_graph_name i
    let body_graph_name := while_loop_body_graph_name i
    if body_graph_name ∈ root_attrs then some (.error .assertionError)
    else some (.ok (cond_graph_name, body_graph_name,
      root_attrs ++ [cond_graph_name, body_graph_name]))

theorem while_loop_dense_go_refines (cond_fn body_fn : List PyVal → PyVal)
    (additional_inputs : List PyVal) (n : Nat) :
    ∀ (fuel : Nat) (carried v : List PyVal),
      while_loop_dense_go cond_fn body_fn additional_inputs n carried fuel
        = some (.ok v) →
      while_loop_reference cond_fn body_fn additional_inputs (.tuple carried) fuel
        = some (.ok (.tuple v)) := by
  intro fuel
  induction fuel with
  | zero =>
    intro carried v h
    rw [while_loop_dense_go] at h
    exact Option.noConfusion h
  | succ fuel ih =>
    intro carried v h
    rw [while_loop_dense_go] at h
    rw [while_loop_reference]
    cases hpred : pyTruth (cond_fn (carried ++ additional_inputs)) with
    | error e => simp only [hpred] at h; simp at h
    | ok b =>
      cases b with
      | false =>
        simp only [hpred] at h
        simp only [hpred]
        simp at h
        simp [h]
      | true =>
        simp only [hpred] at h
        simp only [hpred]
        by_cases hvalid : _is_valid_cond_fn_output (cond_fn (carried ++ additional_inputs)) = true
        · rw [if_pos hvalid] at h
          cases hbody : body_fn (carried ++ additional_inputs) with
          | tuple out =>
            simp only [hbody] at h
            by_cases hlen : out.length = n
            · rw [if_pos hlen] at h
              exact ih out v h
            · rw [if_neg hlen] at h; simp at h
          | tensor sh dt d => simp only [hbody] at h; simp at h
          | int m => simp only [hbody] at h; simp at h
          | float c => simp only [hbody] at h; simp at h
          | bool bb => simp only [hbody] at h; simp at h
          | symInt i => simp only [hbody] at h; simp at h
          | none => simp only [hbody] at h; simp at h
        · rw [if_neg hvalid] at h; simp at h

/-- Claim C1: for every carried-input tuple, additional inputs and
(cond_fn, body_fn) pair, whenever the dense executor terminates normally
(within the given fuel) and returns a tuple, the reference semantics -- the
manually unrolled loop val = carried_inputs; while cond_fn(*val, *add):
val = body_fn(*val, *add); return val -- terminates at the same point with
exactly that tuple. -/
theorem while_loop_dense_equals_reference
    (cond_fn body_fn : List PyVal → PyVal) (carried_inputs : PyVal)
    (additional_inputs : List PyVal) (fuel : Nat) (v : List PyVal)
    (h : while_loop_dense cond_fn body_fn carried_inputs additional_inputs fuel
          = some (.ok v)) :
    while_loop_reference cond_fn body_fn additional_inputs carried_inputs fuel
      = some (.ok (.tuple v)) := by
  cases carried_inputs with
  | tuple cs =>
    exact while_loop_dense_go_refines cond_fn body_fn additional_inputs
      cs.length fuel cs v h
  | tensor sh dt d => simp [while_loop_dense] at h
  | int n => simp [while_loop_dense] at h
  | float c => simp [while_loop_dense] at h
  | bool b => simp [while_loop_dense] at h
  | symInt i => simp [while_loop_dense] at h
  | none => simp [while_loop_dense] at h

/-- Witness for claim C1 at a concrete terminating loop: counting from 0
to 2 with a native-bool condition. The dense executor returns (2,) and the
reference semantics, by the theorem, unrolls to the same tuple. -/
theorem while_loop_dense_equals_reference_witness :
    while_loop_reference
      (fun args => match args.getD 0 .none with
        | .int n => .bool (decide (n < 2))
        | _ => .bool false)
      (fun args => match args.getD 0 .none with
        | .int n => .tuple [.int (n + 1)]
        | _ => .tuple [.none])
      [] (.tuple [.int 0]) 5 = some (.ok (.tuple [.int 2])) :=
  while_loop_dense_equals_reference
    (fun args => match args.getD 0 .none with
      | .int n => .bool (decide (n < 2))
      | _ => .bool false)
    (fun args => match args.getD 0 .none with
      | .int n => .tuple [.int (n + 1)]
      | _ => .tuple [.none])
    (.tuple [.int 0]) [] 5 [.int 2] (by rfl)

/-- Claim C2 counterexample: the claim says every cond_fn result that is
not a valid boolean scalar makes the dense executor fail, truthy or falsy
alike, never terminating normally. The code refutes this: with cond_fn
constantly returning the invalid native int 0 (falsy), the walrus loop
condition exits the loop before the validity check runs, and the executor
terminates normally, returning the carried tuple (5,). -/
theorem while_loop_dense_falsy_invalid_counterexample :
    _is_valid_cond_fn_output (.int 0) = false ∧
    while_loop_dense (fun _ => .int 0) (fun _ => .none) (.tuple [.int 5]) [] 1
      = some (.ok [.int 5]) :=
  ⟨rfl, rfl⟩

/-- Claim C2 (amended): in the dense executor, for every evaluation of
cond_fn whose result is truthy but is not a valid boolean scalar (a native
bool, or a zero-dimensional tensor of boolean dtype), the executor fails
with the type contract error at the point of that evaluation; a falsy
invalid result instead exits the loop normally. Stated from an arbitrary
reachable carried state of the loop. -/
theorem while_loop_dense_truthy_invalid_cond_errors
    (cond_fn body_fn : List PyVal → PyVal) (additional_inputs : List PyVal)
    (n : Nat) (carried : List PyVal) (fuel : Nat)
    (htrue : pyTruth (cond_fn (carried ++ additional_inputs)) = .ok true)
    (hinvalid : _is_valid_cond_fn_output (cond_fn (carried ++ additional_inputs)) = false) :
    while_loop_dense_go cond_fn body_fn additional_inputs n carried (fuel + 1)
      = some (.error .condNotBoolScalar) := by
  rw [while_loop_dense_go]
  simp [htrue, hinvalid]

/-- Witness for claim C2 (amended): cond_fn constantly returning the
native int 1, which is truthy and not a valid boolean scalar, makes the
dense executor raise the condition type contract error immediately. -/
theorem while_loop_dense_truthy_invalid_cond_errors_witness :
    while_loop_dense_go (fun _ => .int 1) (fun _ => .none) [] 1 [.int 5] 1
      = some (.error .condNotBoolScalar) :=
  while_loop_dense_truthy_invalid_cond_errors
    (fun _ => .int 1) (fun _ => .none) [] 1 [.int 5] 0 rfl rfl

/-- Claim C9: in the dense executor, an evaluation of cond_fn whose result
is falsy in the host truth sense but is not a valid boolean scalar (for
example the int 0, the float 0.0, or None) terminates the loop normally,
returning the current carried tuple, without raising: the boolean-scalar
validity check is only reached when the condition result is truthy. -/
theorem while_loop_dense_falsy_invalid_terminates
    (cond_fn body_fn : List PyVal → PyVal) (additional_inputs : List PyVal)
    (n : Nat) (carried : List PyVal) (fuel : Nat)
    (hfalse : pyTruth (cond_fn (carried ++ additional_inputs)) = .ok false)
    (_hinvalid : _is_valid_cond_fn_output (cond_fn (carried ++ additional_inputs)) = false) :
    while_loop_dense_go cond_fn body_fn additional_inputs n carried (fuel + 1)
      = some (.ok carried) := by
  rw [while_loop_dense_go]
  simp [hfalse]

/-- Witness for claim C9: cond_fn constantly returning None, which is
falsy and not a valid boolean scalar, lets the dense executor return the
current carried tuple (7,) normally. -/
theorem while_loop_dense_falsy_invalid_terminates_witness :
    while_loop_dense_go (fun _ => .none) (fun _ => .none) [] 1 [.int 7] 1
      = some (.ok [.int 7]) :=
  while_loop_dense_falsy_invalid_terminates
    (fun _ => .none) (fun _ => .none) [] 1 [.int 7] 0 rfl rfl

/-- Claim C7: in the dense executor, whenever the condition evaluates true
(and is a valid boolean scalar), a body_fn result that is not a tuple
raises the body-not-tuple error at that point; a tuple result whose arity
differs from that of carried_inputs (arity n) raises the arity error at
that point; and a tuple result of the right arity replaces the carried
values and the loop repeats with one unit of fuel consumed. -/
theorem while_loop_dense_body_contract
    (cond_fn body_fn : List PyVal → PyVal) (additional_inputs : List PyVal)
    (n : Nat) (carried : List PyVal) (fuel : Nat)
    (htrue : pyTruth (cond_fn (carried ++ additional_inputs)) = .ok true)
    (hvalid : _is_valid_cond_fn_output (cond_fn (carried ++ additional_inputs)) = true) :
    ((∀ out, body_fn (carried ++ additional_inputs) ≠ .tuple out) →
      while_loop_dense_go cond_fn body_fn additional_inputs n carried (fuel + 1)
        = some (.error .bodyNotTuple)) ∧
    (∀ out, body_fn (carried ++ additional_inputs) = .tuple out → out.length ≠ n →
      while_loop_dense_go cond_fn body_fn additional_inputs n carried (fuel + 1)
        = some (.error .bodyWrongArity)) ∧
    (∀ out, body_fn (carried ++ additional_inputs) = .tuple out → out.length = n →
      while_loop_dense_go cond_fn body_fn additional_inputs n carried (fuel + 1)
        = while_loop_dense_go cond_fn body_fn additional_inputs n out fuel) := by
  refine ⟨?_, ?_, ?_⟩
  · intro hnt
    rw [while_loop_dense_go]
    cases hbody : body_fn (carried ++ additional_inputs) with
    | tuple out => exact absurd hbody (hnt out)
    | tensor sh dt d => simp [htrue, hvalid, hbody]
    | int m => simp [htrue, hvalid, hbody]
    | float c => simp [htrue, hvalid, hbody]
    | bool bb => simp [htrue, hvalid, hbody]
    | symInt i => simp [htrue, hvalid, hbody]
    | none => simp [htrue, hvalid, hbody]
  · intro out hbody hlen
    rw [while_loop_dense_go]
    simp [htrue, hvalid, hbody, hlen]
  · intro out hbody hlen
    rw [while_loop_dense_go]
    simp [htrue, hvalid, hbody, hlen]

/-- Witness for claim C7 at the wrong-arity branch: a body_fn returning
the empty tuple while carried_inputs has arity one makes the dense
executor raise the arity error at the first iteration. -/
theorem while_loop_dense_body_contract_witness :
    while_loop_dense_go (fun _ => .bool true) (fun _ => .tuple []) [] 1 [.int 1] 1
      = some (.error .bodyWrongArity) :=
  (while_loop_dense_body_contract (fun _ => .bool true) (fun _ => .tuple [])
    [] 1 [.int 1] 0 rfl rfl).2.1 [] rfl (by decide)

theorem _unspecialize_int_spec (m : FakeTensorMode) (a : PyVal) (bind : Bool)
    (ha : py_isinstance_int a = true) :
    ∃ m1, _unspecialize_int m a bind = .ok (.symInt m.shape_env.counter, m1) ∧
      m1.shape_env.counter = m.shape_env.counter + 1 ∧
      (bind = false → m1.shape_env.bindings = m.shape_env.bindings) := by
  cases bind with
  | false =>
    refine ⟨⟨⟨m.shape_env.counter + 1, m.shape_env.bindings⟩⟩, ?_, rfl, fun _ => rfl⟩
    simp [_unspecialize_int, ha, ShapeEnv.create_unbacked_symint]
  | true =>
    refine ⟨⟨⟨m.shape_env.counter + 1, m.shape_env.bindings ++ [m.shape_env.counter]⟩⟩,
      ?_, rfl, fun h => by cases h⟩
    simp [_unspecialize_int, ha, ShapeEnv.create_unbacked_symint, compute_unbacked_bindings]

theorem unspecializeList_spec (bind : Bool) :
    ∀ (args : List PyVal) (m : FakeTensorMode),
      ∃ out m1, unspecializeList m args bind = .ok (out, m1) ∧
        out.length = args.length ∧
        m1.shape_env.counter = m.shape_env.counter + args.countP py_isinstance_int ∧
        (bind = false → m1.shape_env.bindings = m.shape_env.bindings) ∧
        ∀ i, i < args.length →
          (py_isinstance_int (args.getD i .none) = false →
            out.getD i .none = args.getD i .none) ∧
          (py_isinstance_int (args.getD i .none) = true →
            out.getD i .none
              = .symInt (m.shape_env.counter + (args.take i).countP py_isinstance_int)) := by
  intro args
  induction args with
  | nil =>
    intro m
    refine ⟨[], m, rfl, rfl, by simp, fun _ => rfl, ?_⟩
    intro i hi
    simp at hi
  | cons a rest ih =>
    intro m
    by_cases ha : py_isinstance_int a = true
    · obtain ⟨m1, hu, hc1, hb1⟩ := _unspecialize_int_spec m a bind ha
      obtain ⟨out1, m2, heq, hlen, hcnt, hbind, hpt⟩ := ih m1
      refine ⟨.symInt m.shape_env.counter :: out1, m2, ?_, by simp [hlen], ?_, ?_, ?_⟩
      · simp [unspecializeList, ha, hu, heq]
      · rw [hcnt, hc1, List.countP_cons, ha]
        simp
        omega
      · intro hb
        rw [hbind hb, hb1 hb]
      · intro i hi
        cases i with
        | zero =>
          constructor
          · intro hfalse
            simp only [List.getD_cons_zero] at hfalse
            rw [ha] at hfalse
            cases hfalse
          · intro _; simp
        | succ i =>
          have hi2 : i < rest.length := by simpa using hi
          refine ⟨fun hfalse => ?_, fun htrue => ?_⟩
          · simpa using (hpt i hi2).1 (by simpa using hfalse)
          · have h2 := (hpt i hi2).2 (by simpa using htrue)
            have harith : m1.shape_env.counter + (List.take i rest).countP py_isinstance_int
                = m.shape_env.counter + (List.take (i + 1) (a :: rest)).countP py_isinstance_int := by
              rw [hc1]
              simp [List.countP_cons, ha]
              omega
            simpa [harith] using h2
    · obtain ⟨out1, m2, heq, hlen, hcnt, hbind, hpt⟩ := ih m
      refine ⟨a :: out1, m2, ?_, by simp [hlen], ?_, hbind, ?_⟩
      · simp [unspecializeList, ha, heq]
      · rw [hcnt, List.countP_cons]
        simp [ha]
      · intro i hi
        cases i with
        | zero =>
          refine ⟨fun _ => by simp, fun htrue => ?_⟩
          simp at htrue
          exact absurd htrue ha
        | succ i =>
          have hi2 : i < rest.length := by simpa using hi
          refine ⟨fun hfalse => ?_, fun htrue => ?_⟩
          · simpa using (hpt i hi2).1 (by simpa using hfalse)
          · have h2 := (hpt i hi2).2 (by simpa using htrue)
            have harith : (List.take i rest).countP py_isinstance_int
                = (List.take (i + 1) (a :: rest)).countP py_isinstance_int := by
              simp [List.countP_cons, ha]
            simpa [harith] using h2

/-- Claim C6 counterexample: the claim says every non-integer element
(tensor, float, bool, symbolic integer) is returned untouched by the
unspecializer. The code refutes this for native bools, because
isinstance(arg, int) also matches bools in Python: on the one-element
carried tuple (True,) with a fresh shape environment, the unspecializer
returns the fresh unbacked symint u0 in place of the bool, not the bool
itself. -/
theorem unspecialize_bool_not_untouched_counterexample :
    unspecialize_ints_with_unbacked_symints ⟨⟨0, []⟩⟩ (.tuple [.bool true]) false
      = .ok (.tuple [.symInt 0], ⟨⟨1, []⟩⟩) ∧
    PyVal.symInt 0 ≠ PyVal.bool true :=
  ⟨rfl, fun h => PyVal.noConfusion h⟩

/-- Claim C6 (amended): for every carried tuple and shape environment, the
symbolic-integer unspecializer returns a tuple of the same arity in which
every element matching Python isinstance(arg, int) -- that is, every plain
integer and also every native bool, bool being an int subtype -- is
replaced by a freshly allocated unbacked symbolic integer (the k-th such
element receives symbol counter+k), while every other element (tensor,
float, symbolic integer, None, nested tuple) is returned untouched at its
original position. -/
theorem unspecialize_ints_claim (m : FakeTensorMode) (args : List PyVal) (bind : Bool) :
    ∃ out m1,
      unspecialize_ints_with_unbacked_symints m (.tuple args) bind
        = .ok (.tuple out, m1) ∧
      out.length = args.length ∧
      ∀ i, i < args.length →
        (py_isinstance_int (args.getD i .none) = false →
          out.getD i .none = args.getD i .none) ∧
        (py_isinstance_int (args.getD i .none) = true →
          out.getD i .none
            = .symInt (m.shape_env.counter + (args.take i).countP py_isinstance_int)) := by
  obtain ⟨out, m1, heq, hlen, _, _, hpt⟩ := unspecializeList_spec bind args m
  exact ⟨out, m1, by simp [unspecialize_ints_with_unbacked_symints, heq], hlen, hpt⟩

/-- Witness for claim C6 (amended) on the concrete carried tuple
(7, 1.0, True, u5) with a fresh shape environment: the int at position 0
becomes u0, the float and the symint are untouched, and the bool at
position 2 becomes u1. -/
theorem unspecialize_ints_claim_witness :
    ∃ out m1,
      unspecialize_ints_with_unbacked_symints ⟨⟨0, []⟩⟩
          (.tuple [.int 7, .float 1, .bool true, .symInt 5]) false
        = .ok (.tuple out, m1) ∧
      out.length = 4 ∧
      out.getD 0 .none = .symInt 0 ∧
      out.getD 1 .none = .float 1 ∧
      out.getD 2 .none = .symInt 1 ∧
      out.getD 3 .none = .symInt 5 := by
  obtain ⟨out, m1, heq, hlen, hpt⟩ := unspecialize_ints_claim ⟨⟨0, []⟩⟩
    [.int 7, .float 1, .bool true, .symInt 5] false
  refine ⟨out, m1, heq, hlen, ?_, ?_, ?_, ?_⟩
  · simpa using (hpt 0 (by decide)).2 rfl
  · simpa using (hpt 1 (by decide)).1 rfl
  · simpa using (hpt 2 (by decide)).2 rfl
  · simpa using (hpt 3 (by decide)).1 rfl

/-- Claim C10: for every carried tuple containing a native bool element
(a value the argument-validation layer of WhileLoopOp accepts as a legal
carried element), the symbolic-integer unspecializer replaces that bool by
a freshly allocated symbolic integer rather than leaving it untouched,
because the isinstance(arg, int) test used to select elements also matches
bools. -/
theorem unspecialize_ints_replaces_bools (m : FakeTensorMode) (args : List PyVal)
    (bind : Bool) (i : Nat) (b : Bool)
    (hi : i < args.length) (hb : args.getD i .none = .bool b) :
    is_allowed_carried_elem (.bool b) = true ∧
    ∃ out m1 k,
      unspecialize_ints_with_unbacked_symints m (.tuple args) bind
        = .ok (.tuple out, m1) ∧
      out.getD i .none = .symInt k ∧
      out.getD i .none ≠ args.getD i .none := by
  obtain ⟨out, m1, heq, _, hpt⟩ := unspecialize_ints_claim m args bind
  have hint : py_isinstance_int (args.getD i .none) = true := by
    rw [hb]; rfl
  have hrep := (hpt i hi).2 hint
  refine ⟨rfl, out, m1, m.shape_env.counter + (args.take i).countP py_isinstance_int,
    heq, hrep, ?_⟩
  rw [hrep, hb]
  exact fun h => PyVal.noConfusion h

/-- Witness for claim C10 on the carried tuple (True,): the bool element
is replaced by the fresh unbacked symint u0. -/
theorem unspecialize_ints_replaces_bools_witness :
    is_allowed_carried_elem (.bool true) = true ∧
    ∃ out m1 k,
      unspecialize_ints_with_unbacked_symints ⟨⟨3, []⟩⟩ (.tuple [.bool true]) false
        = .ok (.tuple out, m1) ∧
      out.getD 0 .none = .symInt k ∧
      out.getD 0 .none ≠ PyVal.bool true :=
  unspecialize_ints_replaces_bools ⟨⟨3, []⟩⟩ [.bool true] false 0 true
    (by decide) rfl

/-- Claim C8: for every non-tuple value passed as carried_inputs (for
example a single tensor), WhileLoopOp.__call__ raises the carried-argument
contract error. The equation holds for every cond_fn, body_fn, external
validator and dispatch continuation, so the error is raised before
dispatch and neither function is ever evaluated. -/
theorem WhileLoopOp_call_non_tuple_carried (cond_fn body_fn : List PyVal → PyVal)
    (carried_inputs additional_inputs : PyVal)
    (validate_subgraph_args_types : PyVal → Except Err Unit)
    (dispatch : (List PyVal → PyVal) → (List PyVal → PyVal) → PyVal → PyVal →
      Except Err (List PyVal))
    (h : ∀ cs, carried_inputs ≠ .tuple cs) :
    WhileLoopOp_call cond_fn body_fn carried_inputs additional_inputs
      validate_subgraph_args_types dispatch = .error .carriedNotTuple := by
  cases carried_inputs with
  | tuple cs => exact absurd rfl (h cs)
  | tensor sh dt d => rfl
  | int n => rfl
  | float c => rfl
  | bool b => rfl
  | symInt i => rfl
  | none => rfl

/-- Witness for claim C8: passing a single tensor (not a tuple) as
carried_inputs raises the contract error, with arbitrary functions,
validator and dispatch continuation in place. -/
theorem WhileLoopOp_call_non_tuple_carried_witness :
    WhileLoopOp_call (fun _ => .none) (fun _ => .none)
      (.tensor [1] .float32 [0]) (.tuple [])
      (fun _ => .ok ()) (fun _ _ _ _ => .ok []) = .error .carriedNotTuple :=
  WhileLoopOp_call_non_tuple_carried (fun _ => .none) (fun _ => .none)
    (.tensor [1] .float32 [0]) (.tuple []) (fun _ => .ok ()) (fun _ _ _ _ => .ok [])
    (fun _ h => PyVal.noConfusion h)

theorem sig_of_py_isinstance_int (v : PyVal) (h : py_isinstance_int v = true) :
    sig v = .intLike := by
  cases v <;> simp_all [py_isinstance_int, sig]

/-- Claim C5: the fake-tensor-mode adapter never evaluates cond_fn (its
result is invariant under changing cond_fn), evaluates body_fn only
through its single value on the carried plus additional inputs, and --
whenever that body output is a tuple matching the carried arity and
per-element signatures, as the body metadata contract of the data model
requires -- returns a tuple of the same arity and per-element signature
as the carried inputs in which every int-like output has been replaced by
a freshly allocated unbacked symbolic integer, allocated in non-binding
mode (the recorded bindings of the shape environment are unchanged). -/
theorem while_loop_fake_tensor_mode_claim (mode : FakeTensorMode)
    (cond_fn cond_fn2 body_fn body_fn2 : List PyVal → PyVal)
    (carried_inputs additional_inputs : List PyVal) :
    (while_loop_fake_tensor_mode mode cond_fn body_fn carried_inputs additional_inputs
      = while_loop_fake_tensor_mode mode cond_fn2 body_fn carried_inputs additional_inputs) ∧
    (body_fn (carried_inputs ++ additional_inputs)
        = body_fn2 (carried_inputs ++ additional_inputs) →
      while_loop_fake_tensor_mode mode cond_fn body_fn carried_inputs additional_inputs
        = while_loop_fake_tensor_mode mode cond_fn body_fn2 carried_inputs additional_inputs) ∧
    (∀ out, body_fn (carried_inputs ++ additional_inputs) = .tuple out →
      out.length = carried_inputs.length →
      (∀ i, i < out.length → sig (out.getD i .none) = sig (carried_inputs.getD i .none)) →
      ∃ res mode1,
        while_loop_fake_tensor_mode mode cond_fn body_fn carried_inputs additional_inputs
          = .ok (.tuple res, mode1) ∧
        res.length = carried_inputs.length ∧
        (∀ i, i < res.length → sig (res.getD i .none) = sig (carried_inputs.getD i .none)) ∧
        (∀ i, i < out.length → py_isinstance_int (out.getD i .none) = true →
          ∃ k, res.getD i .none = .symInt k ∧ mode.shape_env.counter ≤ k) ∧
        mode1.shape_env.bindings = mode.shape_env.bindings) := by
  refine ⟨rfl, ?_, ?_⟩
  · intro h
    simp only [while_loop_fake_tensor_mode, h]
  · intro out hbody hlen hsig
    obtain ⟨res, mode1, heq, hrlen, _, hbind, hpt⟩ := unspecializeList_spec false out mode
    refine ⟨res, mode1, ?_, by rw [hrlen, hlen], ?_, ?_, hbind rfl⟩
    · simp only [while_loop_fake_tensor_mode, hbody,
        unspecialize_ints_with_unbacked_symints, heq]
    · intro i hi
      have hi2 : i < out.length := by rw [hrlen] at hi; exact hi
      by_cases hint : py_isinstance_int (out.getD i .none) = true
      · rw [(hpt i hi2).2 hint]
        rw [← hsig i hi2, sig_of_py_isinstance_int _ hint]
        rfl
      · rw [(hpt i hi2).1 (by simpa using hint)]
        exact hsig i hi2
    · intro i hi hint
      exact ⟨mode.shape_env.counter + (out.take i).countP py_isinstance_int,
        (hpt i hi).2 hint, Nat.le_add_right _ _⟩

/-- Witness for claim C5 at the concrete placeholder carries
(0, tensor of shape [2]) with a metadata-preserving body: the adapter
returns a two-element tuple. -/
theorem while_loop_fake_tensor_mode_claim_witness :
    ∃ res mode1,
      while_loop_fake_tensor_mode ⟨⟨0, []⟩⟩ (fun _ => .bool true)
          (fun _ => .tuple [.int 3, .tensor [2] .float32 [0, 0]])
          [.int 0, .tensor [2] .float32 [1, 2]] []
        = .ok (.tuple res, mode1) ∧
      res.length = 2 := by
  obtain ⟨res, mode1, heq, hlen, -, -, -⟩ :=
    (while_loop_fake_tensor_mode_claim ⟨⟨0, []⟩⟩ (fun _ => .bool true)
        (fun _ => .bool true)
        (fun _ => .tuple [.int 3, .tensor [2] .float32 [0, 0]])
        (fun _ => .tuple [.int 3, .tensor [2] .float32 [0, 0]])
        [.int 0, .tensor [2] .float32 [1, 2]] []).2.2
      [.int 3, .tensor [2] .float32 [0, 0]] rfl rfl (by decide)
  exact ⟨res, mode1, heq, by simpa using hlen⟩

/-- Claim C3: in the functionalization adapter -- with fc and fb the
functionalized condition and body and ui the unwrapped inputs -- a
detected potential input mutation raises the dedicated
unsupported-alias-mutation error naming the offending function, a
detected potential input aliasing raises the dedicated aliasing error
naming the offending function (the checks run in source order: cond
mutation, cond alias, body mutation, body alias), and when both checks
pass for both functions the operator is invoked with the functionalized
functions and the unwrapped inputs, its error propagating unchanged and
its tuple result re-wrapped elementwise in copy-on-write form. -/
theorem while_loop_func_claim (ctx : FunctionalizationCtx)
    (op : (List PyVal → PyVal) → (List PyVal → PyVal) → List PyVal → List PyVal →
      Except Err (List PyVal))
    (cond_fn body_fn : List PyVal → PyVal)
    (carried_inputs additional_inputs uc ua ui : List PyVal)
    (fc fb : List PyVal → PyVal)
    (hfc : fc = ctx.functionalize (ctx.run_with_interpreter cond_fn))
    (hfb : fb = ctx.functionalize (ctx.run_with_interpreter body_fn))
    (huc : uc = carried_inputs.map ctx.unwrap)
    (hua : ua = additional_inputs.map ctx.unwrap)
    (hui : ui = uc ++ ua) :
    (ctx.has_potential_branch_input_mutation fc ui ctx.pre_dispatch = true →
      while_loop_func ctx op cond_fn body_fn carried_inputs additional_inputs
        = .error (.unsupportedAliasMutation "cond_fn" .mutating)) ∧
    (ctx.has_potential_branch_input_mutation fc ui ctx.pre_dispatch = false →
      ctx.has_potential_branch_input_alias fc ui ctx.pre_dispatch = true →
      while_loop_func ctx op cond_fn body_fn carried_inputs additional_inputs
        = .error (.unsupportedAliasMutation "cond_fn" .aliasing)) ∧
    (ctx.has_potential_branch_input_mutation fc ui ctx.pre_dispatch = false →
      ctx.has_potential_branch_input_alias fc ui ctx.pre_dispatch = false →
      ctx.has_potential_branch_input_mutation fb ui ctx.pre_dispatch = true →
      while_loop_func ctx op cond_fn body_fn carried_inputs additional_inputs
        = .error (.unsupportedAliasMutation "body_fn" .mutating)) ∧
    (ctx.has_potential_branch_input_mutation fc ui ctx.pre_dispatch = false →
      ctx.has_potential_branch_input_alias fc ui ctx.pre_dispatch = false →
      ctx.has_potential_branch_input_mutation fb ui ctx.pre_dispatch = false →
      ctx.has_potential_branch_input_alias fb ui ctx.pre_dispatch = true →
      while_loop_func ctx op cond_fn body_fn carried_inputs additional_inputs
        = .error (.unsupportedAliasMutation "body_fn" .aliasing)) ∧
    (ctx.has_potential_branch_input_mutation fc ui ctx.pre_dispatch = false →
      ctx.has_potential_branch_input_alias fc ui ctx.pre_dispatch = false →
      ctx.has_potential_branch_input_mutation fb ui ctx.pre_dispatch = false →
      ctx.has_potential_branch_input_alias fb ui ctx.pre_dispatch = false →
      (∀ e, op fc fb uc ua = .error e →
        while_loop_func ctx op cond_fn body_fn carried_inputs additional_inputs
          = .error e) ∧
      (∀ ret, op fc fb uc ua = .ok ret →
        while_loop_func ctx op cond_fn body_fn carried_inputs additional_inputs
          = .ok (ret.map ctx.wrap))) := by
  subst hfc hfb huc hua hui
  refine ⟨?_, ?_, ?_, ?_, ?_⟩
  · intro h1
    simp [while_loop_func, h1]
  · intro h1 h2
    simp [while_loop_func, h1, h2]
  · intro h1 h2 h3
    simp [while_loop_func, h1, h2, h3]
  · intro h1 h2 h3 h4
    simp [while_loop_func, h1, h2, h3, h4]
  · intro h1 h2 h3 h4
    constructor
    · intro e he
      simp [while_loop_func, h1, h2, h3, h4, he]
    · intro ret hret
      simp [while_loop_func, h1, h2, h3, h4, hret]

/-- Witness for claim C3 at a context whose checks all pass and whose
unwrap, wrap, functionalize and interpreter transforms are identities:
the adapter returns the operator result (the carried inputs themselves),
re-wrapped. -/
theorem while_loop_func_claim_witness :
    while_loop_func
      ⟨fun v => v, fun v => v, fun f => f, fun f => f, false,
        fun _ _ _ => false, fun _ _ _ => false⟩
      (fun _ _ uc _ => .ok uc) (fun _ => .none) (fun _ => .none)
      [.int 1] [] = .ok [.int 1] := by
  have h := ((while_loop_func_claim
      ⟨fun v => v, fun v => v, fun f => f, fun f => f, false,
        fun _ _ _ => false, fun _ _ _ => false⟩
      (fun _ _ uc _ => .ok uc) (fun _ => .none) (fun _ => .none)
      [.int 1] [] ([.int 1].map (fun v => v)) ([].map (fun v => v))
      (([.int 1].map (fun v => v)) ++ ([].map (fun v => v)))
      (fun _ => .none) (fun _ => .none)
      rfl rfl rfl rfl rfl).2.2.2.2 rfl rfl rfl rfl).2
      ([.int 1].map (fun v => v)) rfl
  simpa using h

theorem find_cond_graph_suffix_spec (root_attrs : List String) :
    ∀ (fuel i0 i : Nat), find_cond_graph_suffix root_attrs i0 fuel = some i →
      while_loop_cond_graph_name i ∉ root_attrs ∧ i0 ≤ i ∧
      ∀ j, i0 ≤ j → j < i → while_loop_cond_graph_name j ∈ root_attrs := by
  intro fuel
  induction fuel with
  | zero =>
    intro i0 i h
    rw [find_cond_graph_suffix] at h
    cases h
  | succ fuel ih =>
    intro i0 i h
    rw [find_cond_graph_suffix] at h
    by_cases hmem : while_loop_cond_graph_name i0 ∈ root_attrs
    · rw [if_pos hmem] at h
      obtain ⟨h1, h2, h3⟩ := ih (i0 + 1) i h
      refine ⟨h1, by omega, ?_⟩
      intro j hj1 hj2
      by_cases hji : j = i0
      · rw [hji]; exact hmem
      · exact h3 j (by omega) hj2
    · rw [if_neg hmem] at h
      cases h
      exact ⟨hmem, Nat.le_refl _, fun j hj1 hj2 => by omega⟩

theorem while_loop_body_graph_name_ne_cond_graph_name (i j : Nat) :
    while_loop_body_graph_name i ≠ while_loop_cond_graph_name j := by
  intro h
  have hd := congrArg String.data h
  rw [while_loop_body_graph_name, while_loop_cond_graph_name,
    String.data_append, String.data_append] at hd
  have h11 : ("while_loop_body_graph_".data ++ (toString i).data).getD 11 'z'
      = ("while_loop_cond_graph_".data ++ (toString j).data).getD 11 'z' := by
    rw [hd]
  rw [List.getD_append _ _ _ _ (by decide), List.getD_append _ _ _ _ (by decide)] at h11
  exact absurd h11 (by decide)

theorem while_loop_graph_name_suffix_inj (p : String) (a b : Nat)
    (h : p ++ toString a = p ++ toString b) : toString a = toString b := by
  have hd := congrArg String.data h
  rw [String.data_append, String.data_append] at hd
  exact String.ext (List.append_cancel_left hd)

/-- Claim C4 counterexample: the claim says the suffix is incremented
until both the cond name and the body name are free, for every prior
state of the namespace. The code refutes this: it probes only the cond
name and merely asserts the body name free. On the prior namespace state
that contains while_loop_body_graph_0 but not while_loop_cond_graph_0,
the probe stops at suffix 0 and the assertion fails, instead of advancing
to suffix 1 and registering a collision-free pair. -/
theorem while_loop_tracing_body_collision_counterexample :
    _trace_while_loop_register_subgraphs ["while_loop_body_graph_0"] 1
      = some (.error .assertionError) := by
  rfl

/-- Claim C4 (amended): the tracing adapter probes only the cond name,
incrementing the suffix until the cond name is free (every smaller suffix
has its cond name taken), asserts the body name of the same suffix free,
and registers both names. For every prior namespace state in which each
present body name is accompanied by its cond partner of the same suffix
(as holds for every state produced by registrations of this adapter
itself), tracing twice registers two distinct, collision-free name
pairs. -/
theorem while_loop_tracing_two_registrations_distinct
    (ns : List String) (fuel1 fuel2 i1 i2 : Nat)
    (hpaired : ∀ j, while_loop_body_graph_name j ∈ ns →
      while_loop_cond_graph_name j ∈ ns)
    (hf1 : find_cond_graph_suffix ns 0 fuel1 = some i1)
    (hf2 : find_cond_graph_suffix
      (ns ++ [while_loop_cond_graph_name i1, while_loop_body_graph_name i1]) 0 fuel2
      = some i2) :
    (∀ j, j < i1 → while_loop_cond_graph_name j ∈ ns) ∧
    _trace_while_loop_register_subgraphs ns fuel1
      = some (.ok (while_loop_cond_graph_name i1, while_loop_body_graph_name i1,
          ns ++ [while_loop_cond_graph_name i1, while_loop_body_graph_name i1])) ∧
    _trace_while_loop_register_subgraphs
        (ns ++ [while_loop_cond_graph_name i1, while_loop_body_graph_name i1]) fuel2
      = some (.ok (while_loop_cond_graph_name i2, while_loop_body_graph_name i2,
          (ns ++ [while_loop_cond_graph_name i1, while_loop_body_graph_name i1])
            ++ [while_loop_cond_graph_name i2, while_loop_body_graph_name i2])) ∧
    while_loop_cond_graph_name i1 ≠ while_loop_cond_graph_name i2 ∧
    while_loop_body_graph_name i1 ≠ while_loop_body_graph_name i2 := by
  obtain ⟨hni1, -, hseq1⟩ := find_cond_graph_suffix_spec ns fuel1 0 i1 hf1
  obtain ⟨hni2, -, -⟩ := find_cond_graph_suffix_spec
    (ns ++ [while_loop_cond_graph_name i1, while_loop_body_graph_name i1])
    fuel2 0 i2 hf2
  have hbody1 : while_loop_body_graph_name i1 ∉ ns :=
    fun hmem => hni1 (hpaired i1 hmem)
  have hc1mem : while_loop_cond_graph_name i1
      ∈ ns ++ [while_loop_cond_graph_name i1, while_loop_body_graph_name i1] := by
    simp
  have hne_cc : while_loop_cond_graph_name i1 ≠ while_loop_cond_graph_name i2 :=
    fun h => hni2 (h ▸ hc1mem)
  have hts : toString i1 ≠ toString i2 := fun h =>
    hne_cc (by rw [while_loop_cond_graph_name, while_loop_cond_graph_name, h])
  have hne_bb : while_loop_body_graph_name i1 ≠ while_loop_body_graph_name i2 :=
    fun h => hts (while_loop_graph_name_suffix_inj _ _ _ h)
  have hbody2 : while_loop_body_graph_name i2
      ∉ ns ++ [while_loop_cond_graph_name i1, while_loop_body_graph_name i1] := by
    intro hmem
    rcases List.mem_append.mp hmem with hin | hpair
    · exact hni2 (List.mem_append_left _ (hpaired i2 hin))
    · simp only [List.mem_cons, List.not_mem_nil, or_false] at hpair
      rcases hpair with hco | hbo
      · exact while_loop_body_graph_name_ne_cond_graph_name i2 i1 hco
      · exact hne_bb hbo.symm
  refine ⟨fun j hj => hseq1 j (Nat.zero_le _) hj, ?_, ?_, hne_cc, hne_bb⟩
  · simp only [_trace_while_loop_register_subgraphs, hf1]
    rw [if_neg hbody1]
  · simp only [_trace_while_loop_register_subgraphs, hf2]
    rw [if_neg hbody2]

/-- Witness for claim C4 (amended): starting from the empty namespace,
the first registration takes suffix 0 and the second takes suffix 1,
yielding two distinct collision-free pairs. -/
theorem while_loop_tracing_two_registrations_distinct_witness :
    _trace_while_loop_register_subgraphs [] 1
      = some (.ok (while_loop_cond_graph_name 0, while_loop_body_graph_name 0,
          [while_loop_cond_graph_name 0, while_loop_body_graph_name 0])) ∧
    _trace_while_loop_register_subgraphs
        [while_loop_cond_graph_name 0, while_loop_body_graph_name 0] 2
      = some (.ok (while_loop_cond_graph_name 1, while_loop_body_graph_name 1,
          [while_loop_cond_graph_name 0, while_loop_body_graph_name 0,
           while_loop_cond_graph_name 1, while_loop_body_graph_name 1])) ∧
    while_loop_cond_graph_name 0 ≠ while_loop_cond_graph_name 1 := by
  obtain ⟨-, h1, h2, hne, -⟩ := while_loop_tracing_two_registrations_distinct
    [] 1 2 0 1 (fun j hj => absurd hj (List.not_mem_nil _)) (by decide) (by decide)
  exact ⟨by simpa using h1, by simpa using h2, hne⟩

end WhileLoopHOP
